import Mathlib

/-!
Shallow embedding of the "Jus de pomme" reservation application
(`src/db.js`, `src/app.js`).

Time representation: a civil date is a day index (`Nat`), a time of day is
minutes since midnight (`Nat`), and an absolute instant (the SQL
`timestamptz`, always built with a `+00` offset by the code) is minutes
since the epoch (`Int`).  The slot granularity `interval '15 minutes'` is
the constant `15`.
-/

namespace JusDePomme

/-- Row of the `presences` table (`db.js`, `ensureSchema`). -/
structure Presence where
  id : Nat
  location : String
  date : Nat
  start_time : Nat
  end_time : Nat
  deriving DecidableEq, Repr

/-- Row of the `slots` table: `presence_id` references `presences`
(`ON DELETE CASCADE`), `start_at` is the absolute instant,
`UNIQUE (presence_id, start_at)`. -/
structure Slot where
  id : Nat
  presence_id : Nat
  start_at : Int
  deriving DecidableEq, Repr

/-- Row of the `reservations` table: `slot_id` references `slots`
(`ON DELETE CASCADE`), `token` is `UNIQUE`. -/
structure Reservation where
  id : Nat
  slot_id : Nat
  first_name : String
  last_name : String
  phone : String
  quantity : Int
  comment : Option String
  token : String
  created_at : Int
  deriving DecidableEq, Repr

/-- The persistent state: the three tables plus the `SERIAL` counters. -/
structure DB where
  presences : List Presence
  slots : List Slot
  reservations : List Reservation
  nextPresenceId : Nat
  nextSlotId : Nat
  nextReservationId : Nat
  deriving DecidableEq, Repr

/-- The absolute instant `"${date} ${time}:00+00"::timestamptz` used by
`createPresence` and `updatePresenceWithRegeneration`. -/
def slotInstant (date time : Nat) : Int :=
  1440 * (date : Int) + (time : Int)

/-- Postgres `generate_series(start, stop, step)` for a positive `step`:
the values `start, start+step, …` that are `≤ stop`; empty when
`start > stop`. -/
def generateSeries (start stop step : Int) : List Int :=
  if start > stop then []
  else (List.range (((stop - start) / step).toNat + 1)).map
    (fun k : Nat => start + step * (k : Int))

/-- The instants inserted by the slot-generation query in `createPresence`
and `updatePresenceWithRegeneration`:
`generate_series(ts, te - interval '15 minutes', interval '15 minutes')`. -/
def slotInstants (date st et : Nat) : List Int :=
  generateSeries (slotInstant date st) (slotInstant date et - 15) 15

/-- The `ON CONFLICT DO NOTHING` check against `UNIQUE (presence_id, start_at)`. -/
def hasSlotConflict (slots : List Slot) (pid : Nat) (t : Int) : Bool :=
  slots.any (fun s => s.presence_id == pid && s.start_at == t)

/-- `INSERT INTO slots (presence_id, start_at) SELECT pid, gs … ON CONFLICT
DO NOTHING`: each generated instant becomes a fresh row unless it collides
with an existing `(presence_id, start_at)` pair. Returns the new table and
the next `SERIAL` value. -/
def insertSlotRows : List Slot → Nat → Nat → List Int → List Slot × Nat
  | slots, nextId, _, [] => (slots, nextId)
  | slots, nextId, pid, t :: rest =>
    if hasSlotConflict slots pid t then insertSlotRows slots nextId pid rest
    else insertSlotRows (slots ++ [⟨nextId, pid, t⟩]) (nextId + 1) pid rest

/-- `createPresence({location, date, start_time, end_time})` (`db.js`):
inserts the presence row, then materializes its slots from
`generate_series`; returns the new state and the new presence id. -/
def createPresence (db : DB) (location : String) (date st et : Nat) :
    DB × Nat :=
  let pid := db.nextPresenceId
  let p : Presence := ⟨pid, location, date, st, et⟩
  let ins := insertSlotRows db.slots db.nextSlotId pid (slotInstants date st et)
  ({ db with
      presences := db.presences ++ [p]
      slots := ins.1
      nextPresenceId := pid + 1
      nextSlotId := ins.2 }, pid)

/-- The slots belonging to a presence (`WHERE presence_id = pid`), in table
order. -/
def slotsOf (slots : List Slot) (pid : Nat) : List Slot :=
  slots.filter (fun s => s.presence_id == pid)

/-- `ORDER BY a ASC, b ASC` on a two-part sort key. -/
def lex2LE {α β : Type} [LinearOrder α] [LinearOrder β] (a b : α × β) : Prop :=
  a.1 < b.1 ∨ (a.1 = b.1 ∧ a.2 ≤ b.2)

/-- `ORDER BY a ASC, b ASC, c ASC` on a three-part sort key. -/
def lex3LE {α β γ : Type} [LinearOrder α] [LinearOrder β] [LinearOrder γ]
    (a b : α × β × γ) : Prop :=
  a.1 < b.1 ∨ (a.1 = b.1 ∧ lex2LE a.2 b.2)

instance {α β : Type} [LinearOrder α] [LinearOrder β] (a b : α × β) :
    Decidable (lex2LE a b) := by
  unfold lex2LE; infer_instance

instance {α β γ : Type} [LinearOrder α] [LinearOrder β] [LinearOrder γ]
    (a b : α × β × γ) : Decidable (lex3LE a b) := by
  unfold lex3LE; infer_instance

/-- The `::date` cast of a `timestamptz` (UTC session): the calendar day the
instant falls in. -/
def instantDate (t : Int) : Int :=
  Int.fdiv t 1440

/-- `value ILIKE '%' || pattern || '%'`: case-insensitive substring match. -/
def ilikeContains (value pattern : String) : Bool :=
  decide (pattern.toLower.toList <:+: value.toLower.toList)

/-- A row of `listUpcomingSlots`: `s.id AS slot_id, s.start_at, p.location,
p.date`. -/
structure SlotRow where
  slot_id : Nat
  start_at : Int
  location : String
  date : Nat
  deriving DecidableEq, Repr

/-- `FROM slots s JOIN presences p ON p.id = s.presence_id`; `presences.id`
is the primary key, so the matching presence is looked up by id. -/
def joinSlotRows (db : DB) : List SlotRow :=
  db.slots.filterMap (fun s =>
    (db.presences.find? (fun p => p.id == s.presence_id)).map
      (fun p => ⟨s.id, s.start_at, p.location, p.date⟩))

/-- The `ORDER BY p.date ASC, p.location ASC, s.start_at ASC` key. -/
def slotSortKey (r : SlotRow) : Nat × String × Int :=
  (r.date, r.location, r.start_at)

/-- `listUpcomingSlots({dateFilter, locationFilter})` (`db.js`): joined rows
with `s.start_at >= NOW()`, optionally `s.start_at::date = dateFilter` and
`p.location ILIKE '%locationFilter%'`, ordered by
`p.date ASC, p.location ASC, s.start_at ASC`. -/
def listUpcomingSlots (db : DB) (now : Int) (dateFilter : Option Nat)
    (locationFilter : String) : List SlotRow :=
  let base := (joinSlotRows db).filter (fun r => now ≤ r.start_at)
  let base := match dateFilter with
    | none => base
    | some d => base.filter (fun r => instantDate r.start_at == (d : Int))
  let base := if locationFilter = "" then base
    else base.filter (fun r => ilikeContains r.location locationFilter)
  base.insertionSort (fun a b => lex3LE (slotSortKey a) (slotSortKey b))

/-- A row of `getSlotById`: `s.*, p.location, p.date`. -/
structure SlotDetail where
  id : Nat
  presence_id : Nat
  start_at : Int
  location : String
  date : Nat
  deriving DecidableEq, Repr

/-- `getSlotById(slotId)` (`db.js`): the slot joined to its presence, or
absent. -/
def getSlotById (db : DB) (slotId : Nat) : Option SlotDetail :=
  (db.slots.find? (fun s => s.id == slotId)).bind (fun s =>
    (db.presences.find? (fun p => p.id == s.presence_id)).map (fun p =>
      ⟨s.id, s.presence_id, s.start_at, p.location, p.date⟩))

/-- `createReservation({...})` (`db.js`): a plain `INSERT`.  The schema's
`token TEXT NOT NULL UNIQUE` and `slot_id REFERENCES slots(id)` constraints
make the insert raise (modelled as `none`) on a duplicate token or a
dangling slot id; otherwise the row is appended with the next serial id and
`created_at = NOW()`. -/
def createReservation (db : DB) (slot_id : Nat)
    (first_name last_name phone : String) (quantity : Int)
    (comment : Option String) (token : String) (now : Int) :
    Option (DB × Nat) :=
  if db.reservations.any (fun r => r.token == token) then none
  else if !(db.slots.any (fun s => s.id == slot_id)) then none
  else some ({ db with
      reservations := db.reservations ++
        [⟨db.nextReservationId, slot_id, first_name, last_name, phone,
          quantity, comment, token, now⟩]
      nextReservationId := db.nextReservationId + 1 }, db.nextReservationId)

/-- A row of `getReservationByToken`: `r.*, s.start_at, p.location, p.date`. -/
structure ResDetail where
  id : Nat
  slot_id : Nat
  first_name : String
  last_name : String
  phone : String
  quantity : Int
  comment : Option String
  token : String
  created_at : Int
  start_at : Int
  location : String
  date : Nat
  deriving DecidableEq, Repr

/-- `getReservationByToken(token)` (`db.js`): the reservation joined to its
slot and presence, or absent. -/
def getReservationByToken (db : DB) (token : String) : Option ResDetail :=
  (db.reservations.find? (fun r => r.token == token)).bind (fun r =>
    (db.slots.find? (fun s => s.id == r.slot_id)).bind (fun s =>
      (db.presences.find? (fun p => p.id == s.presence_id)).map (fun p =>
        ⟨r.id, r.slot_id, r.first_name, r.last_name, r.phone, r.quantity,
         r.comment, r.token, r.created_at, s.start_at, p.location, p.date⟩)))

/-- The updatable reservation fields of `updateReservation`. -/
structure ResFields where
  first_name : String
  last_name : String
  phone : String
  quantity : Int
  comment : Option String
  deriving DecidableEq, Repr

/-- `updateReservation(token, fields)` (`db.js`): `UPDATE reservations SET
first_name, last_name, phone, quantity, comment WHERE token = token`. -/
def updateReservation (db : DB) (token : String) (f : ResFields) : DB :=
  { db with reservations := db.reservations.map (fun r =>
      if r.token == token then
        { r with
            first_name := f.first_name
            last_name := f.last_name
            phone := f.phone
            quantity := f.quantity
            comment := f.comment }
      else r) }

/-- `deleteReservationByToken(token)` (`db.js`). -/
def deleteReservationByToken (db : DB) (token : String) : DB :=
  { db with reservations := db.reservations.filter (fun r => !(r.token == token)) }

/-- A row of `listReservations`. -/
structure ResRow where
  id : Nat
  first_name : String
  last_name : String
  phone : String
  quantity : Int
  comment : Option String
  created_at : Int
  start_at : Int
  location : String
  date : Nat
  token : String
  deriving DecidableEq, Repr

/-- `FROM reservations r JOIN slots s ON s.id = r.slot_id JOIN presences p
ON p.id = s.presence_id`, both joined on primary keys. -/
def joinResRows (db : DB) : List ResRow :=
  db.reservations.filterMap (fun r =>
    (db.slots.find? (fun s => s.id == r.slot_id)).bind (fun s =>
      (db.presences.find? (fun p => p.id == s.presence_id)).map (fun p =>
        ⟨r.id, r.first_name, r.last_name, r.phone, r.quantity, r.comment,
         r.created_at, s.start_at, p.location, p.date, r.token⟩)))

/-- The `ORDER BY p.date ASC, s.start_at ASC` key of `listReservations`. -/
def resSortKey (r : ResRow) : Nat × Int :=
  (r.date, r.start_at)

/-- `listReservations({date, location})` (`db.js`): joined rows, optionally
`p.date = date` and `p.location ILIKE '%location%'`, ordered by
`p.date ASC, s.start_at ASC`, capped by `LIMIT 100`. -/
def listReservations (db : DB) (date : Option Nat) (location : String) :
    List ResRow :=
  let base := joinResRows db
  let base := match date with
    | none => base
    | some d => base.filter (fun r => r.date == d)
  let base := if location = "" then base
    else base.filter (fun r => ilikeContains r.location location)
  (base.insertionSort (fun a b => lex2LE (resSortKey a) (resSortKey b))).take 100

/-- `getPresenceById(id)` (`db.js`). -/
def getPresenceById (db : DB) (pid : Nat) : Option Presence :=
  db.presences.find? (fun p => p.id == pid)

/-- `countReservationsForPresence(presenceId)` (`db.js`): `COUNT(*)` over
`reservations r JOIN slots s ON s.id = r.slot_id WHERE s.presence_id = pid`. -/
def countReservationsForPresence (db : DB) (pid : Nat) : Nat :=
  (db.reservations.filter (fun r =>
    db.slots.any (fun s => s.id == r.slot_id && s.presence_id == pid))).length

/-- `DELETE FROM slots WHERE presence_id = pid`; the schema's
`ON DELETE CASCADE` removes every reservation whose slot was deleted. -/
def cascadeDeleteSlots (db : DB) (pid : Nat) : DB :=
  { db with
      slots := db.slots.filter (fun s => !(s.presence_id == pid))
      reservations := db.reservations.filter (fun r =>
        !(db.slots.any (fun s => s.presence_id == pid && s.id == r.slot_id))) }

/-- `updatePresenceWithRegeneration(presenceId, fields)` (`db.js`): in one
transaction, update the presence row, delete its slots (cascading to their
reservations), and re-insert the generated slot set for the new window. -/
def updatePresenceWithRegeneration (db : DB) (pid : Nat) (location : String)
    (date st et : Nat) : DB :=
  let db1 := { db with presences := db.presences.map (fun p =>
      if p.id == pid then ⟨p.id, location, date, st, et⟩ else p) }
  let db2 := cascadeDeleteSlots db1 pid
  let ins := insertSlotRows db2.slots db2.nextSlotId pid (slotInstants date st et)
  { db2 with slots := ins.1, nextSlotId := ins.2 }

/-! ### HTTP handlers (`app.js`) -/

/-- `isBeforeSlotStart(slotStartIso)` (`app.js`): `new Date() < new
Date(slotStartIso)`. -/
def isBeforeSlotStart (now start_at : Int) : Bool :=
  decide (now < start_at)

/-- Outcome of the self-service mutation handlers. -/
inductive MutOutcome where
  | notFound
  | windowClosed
  | validationFailed
  | ok
  deriving DecidableEq, Repr

/-- The form body of `POST /r/:token/edit`; `quantity` is the result of
`parseInt(quantity, 10)` (`none` when it is NaN, e.g. for a missing or
non-numeric field). -/
structure EditBody where
  first_name : String
  last_name : String
  phone : String
  quantity : Option Int
  comment : Option String
  deriving DecidableEq, Repr

/-- `POST /r/:token/edit` (`app.js`): 404 on an unknown token, 403 once the
slot has started, 400 when `!first_name || !last_name || !phone || !qty ||
qty < 1` (a NaN or zero `qty` is falsy), otherwise `updateReservation`. -/
def postEditReservation (db : DB) (now : Int) (token : String) (b : EditBody) :
    MutOutcome × DB :=
  match getReservationByToken db token with
  | none => (.notFound, db)
  | some r =>
    if !(isBeforeSlotStart now r.start_at) then (.windowClosed, db)
    else match b.quantity with
      | none => (.validationFailed, db)
      | some qty =>
        if b.first_name == "" || b.last_name == "" || b.phone == "" ||
            decide (qty < 1) then
          (.validationFailed, db)
        else
          (.ok, updateReservation db token
            ⟨b.first_name, b.last_name, b.phone, qty, b.comment⟩)

/-- `POST /r/:token/cancel` (`app.js`): 404 on an unknown token, 403 once
the slot has started, otherwise `deleteReservationByToken`. -/
def postCancelReservation (db : DB) (now : Int) (token : String) :
    MutOutcome × DB :=
  match getReservationByToken db token with
  | none => (.notFound, db)
  | some r =>
    if !(isBeforeSlotStart now r.start_at) then (.windowClosed, db)
    else (.ok, deleteReservationByToken db token)

/-- Outcome of `POST /reserve/:slotId`; `confirmed` carries the minted
token and the `emailSent: !!email` flag passed to the confirmation view. -/
inductive ReserveOutcome where
  | slotNotFound
  | validationFailed
  | insertError
  | confirmed (token : String) (emailSent : Bool)
  deriving DecidableEq, Repr

/-- The form body of `POST /reserve/:slotId`; `quantity` is the result of
`parseInt(quantity, 10)` (`none` covers a missing field and a NaN parse),
`email` is `""` when the requester gave no address. -/
structure ReserveBody where
  first_name : String
  last_name : String
  phone : String
  quantity : Option Int
  comment : Option String
  email : String
  deriving DecidableEq, Repr

/-- `POST /reserve/:slotId` (`app.js`): slot lookup, field validation, a
fresh `uuidv4()` token (passed in as `token`), `createReservation`, then —
only if an email address was supplied — a best-effort
`sendConfirmationEmail` whose failure (`emailSendFails`) is caught and
logged (the `Bool` in the result records that a send error was logged);
the confirmation is rendered regardless. -/
def postReserveSlot (db : DB) (slotId : Nat) (b : ReserveBody) (token : String)
    (now : Int) (emailSendFails : Bool) : ReserveOutcome × DB × Bool :=
  match getSlotById db slotId with
  | none => (.slotNotFound, db, false)
  | some _ =>
    match b.quantity with
    | none => (.validationFailed, db, false)
    | some qty =>
      if b.first_name == "" || b.last_name == "" || b.phone == "" ||
          decide (qty < 1) then
        (.validationFailed, db, false)
      else
        match createReservation db slotId b.first_name b.last_name b.phone qty
            b.comment token now with
        | none => (.insertError, db, false)
        | some (db2, _) =>
          (.confirmed token (b.email != ""), db2, b.email != "" && emailSendFails)

/-- Outcome of `POST /admin/presences/:id/edit`. -/
inductive AdminEditOutcome where
  | presenceNotFound
  | validationError
  | impactConfirmationRequired (count : Nat)
  | updated
  deriving DecidableEq, Repr

/-- The form body of the admin presence form; the date and the two times
are modelled after parsing (`new Date` on the `YYYY-MM-DD` / `HH:MM`
fields). -/
structure PresenceBody where
  location : String
  date : Nat
  start_time : Nat
  end_time : Nat
  deriving DecidableEq, Repr

/-- `POST /admin/presences/:id/edit` (`app.js`): 404 on an unknown
presence, a validation error when the location is missing or `!(start <
end)`, the impact-confirmation round-trip carrying
`countReservationsForPresence` when reservations exist and
`confirm_impact` was not ticked, otherwise `updatePresenceWithRegeneration`. -/
def postAdminEditPresence (db : DB) (pid : Nat) (b : PresenceBody)
    (confirm_impact : Bool) : AdminEditOutcome × DB :=
  match getPresenceById db pid with
  | none => (.presenceNotFound, db)
  | some _ =>
    if b.location == "" then (.validationError, db)
    else if !(decide (slotInstant b.date b.start_time <
        slotInstant b.date b.end_time)) then
      (.validationError, db)
    else
      let reservationsCount := countReservationsForPresence db pid
      if reservationsCount > 0 && !confirm_impact then
        (.impactConfirmationRequired reservationsCount, db)
      else
        (.updated, updatePresenceWithRegeneration db pid b.location b.date
          b.start_time b.end_time)

/-! ### Helper lemmas -/

/-- The store right after `ensureSchema` on a fresh database: empty tables,
serial counters at 1. -/
def dbEmpty : DB := ⟨[], [], [], 1, 1, 1⟩

/-- The ideal ladder `start, start + 15, …` of `n` instants. -/
def slotLadder (start : Int) (n : Nat) : List Int :=
  (List.range n).map (fun k : Nat => start + 15 * (k : Int))

theorem slotInstants_eq_ladder (date st m : Nat) :
    slotInstants date st (st + 15 * (m + 1)) =
      slotLadder (slotInstant date st) (m + 1) := by
  unfold slotInstants generateSeries slotInstant slotLadder
  have hstop : 1440 * (date : Int) + ((st + 15 * (m + 1) : Nat) : Int) - 15 =
      1440 * (date : Int) + (st : Int) + 15 * (m : Int) := by
    push_cast; ring
  rw [hstop, if_neg (by omega)]
  have hdiff : 1440 * (date : Int) + (st : Int) + 15 * (m : Int) -
      (1440 * (date : Int) + (st : Int)) = 15 * (m : Int) := by ring
  rw [hdiff, Int.mul_ediv_cancel_left _ (by norm_num)]
  simp

theorem slotInstants_eq_nil (date st et : Nat) (h : et ≤ st) :
    slotInstants date st et = [] := by
  unfold slotInstants generateSeries slotInstant
  rw [if_pos (by omega)]

theorem slotInstants_nodup (date st et : Nat) : (slotInstants date st et).Nodup := by
  unfold slotInstants generateSeries
  split
  · exact List.nodup_nil
  · refine List.Nodup.map ?_ (List.nodup_range _)
    intro a b hab
    simp only at hab
    omega

/-- The rows produced by the slot-insertion `SELECT`, with consecutive
serial ids. -/
def slotRowsFrom (nextId pid : Nat) : List Int → List Slot
  | [] => []
  | t :: rest => ⟨nextId, pid, t⟩ :: slotRowsFrom (nextId + 1) pid rest

theorem slotRowsFrom_map_start_at (nextId pid : Nat) (l : List Int) :
    (slotRowsFrom nextId pid l).map (fun s => s.start_at) = l := by
  induction l generalizing nextId with
  | nil => rfl
  | cons t rest ih => simp [slotRowsFrom, ih]

theorem slotRowsFrom_mem (nextId pid : Nat) (l : List Int) :
    ∀ s ∈ slotRowsFrom nextId pid l, s.presence_id = pid ∧ nextId ≤ s.id := by
  induction l generalizing nextId with
  | nil => intro s hs; cases hs
  | cons t rest ih =>
    intro s hs
    rcases List.mem_cons.mp hs with rfl | h
    · exact ⟨rfl, le_refl _⟩
    · exact ⟨(ih (nextId + 1) s h).1, by have := (ih (nextId + 1) s h).2; omega⟩

theorem insertSlotRows_eq (slots : List Slot) (nid pid : Nat) (l : List Int)
    (hno : ∀ s ∈ slots, s.presence_id = pid → s.start_at ∉ l)
    (hnd : l.Nodup) :
    insertSlotRows slots nid pid l =
      (slots ++ slotRowsFrom nid pid l, nid + l.length) := by
  induction l generalizing slots nid with
  | nil => simp [insertSlotRows, slotRowsFrom]
  | cons t rest ih =>
    have hconf : hasSlotConflict slots pid t = false := by
      unfold hasSlotConflict
      rw [List.any_eq_false]
      intro s hs
      simp only [Bool.and_eq_true, beq_iff_eq, not_and]
      intro hp ht
      exact hno s hs hp (ht ▸ List.mem_cons_self t rest)
    have hnd' := List.nodup_cons.mp hnd
    have hno' : ∀ s ∈ slots ++ [(⟨nid, pid, t⟩ : Slot)],
        s.presence_id = pid → s.start_at ∉ rest := by
      intro s hs hp
      rcases List.mem_append.mp hs with h | h
      · exact fun hmem => hno s h hp (List.mem_cons_of_mem t hmem)
      · rcases List.mem_singleton.mp h with rfl
        exact hnd'.1
    rw [insertSlotRows, hconf]
    simp only [Bool.false_eq_true, if_false]
    rw [ih (slots ++ [(⟨nid, pid, t⟩ : Slot)]) (nid + 1) hno' hnd'.2]
    simp only [slotRowsFrom, List.append_assoc, List.singleton_append,
      List.length_cons, Prod.mk.injEq, true_and]
    omega

theorem slotsOf_append (a b : List Slot) (pid : Nat) :
    slotsOf (a ++ b) pid = slotsOf a pid ++ slotsOf b pid :=
  List.filter_append _ _

theorem slotsOf_eq_nil (slots : List Slot) (pid : Nat)
    (h : ∀ s ∈ slots, s.presence_id ≠ pid) : slotsOf slots pid = [] := by
  rw [slotsOf, List.filter_eq_nil_iff]
  intro s hs
  simpa using h s hs

theorem slotsOf_slotRowsFrom (nid pid : Nat) (l : List Int) :
    slotsOf (slotRowsFrom nid pid l) pid = slotRowsFrom nid pid l := by
  rw [slotsOf, List.filter_eq_self]
  intro s hs
  simp [(slotRowsFrom_mem nid pid l s hs).1]

theorem slotLadder_pairwise (start : Int) (n : Nat) :
    (slotLadder start n).Pairwise (· < ·) := by
  unfold slotLadder
  rw [List.pairwise_map]
  exact (List.pairwise_lt_range n).imp (fun h => by omega)

theorem slotLadder_head? (start : Int) (m : Nat) :
    (slotLadder start (m + 1)).head? = some start := by
  unfold slotLadder
  rw [List.range_succ_eq_map]
  simp

theorem slotLadder_mem_lt (start : Int) (n : Nat) :
    ∀ t ∈ slotLadder start n, t < start + 15 * (n : Int) := by
  intro t ht
  rcases List.mem_map.mp ht with ⟨k, hk, rfl⟩
  have := List.mem_range.mp hk
  omega

theorem createPresence_eq (db : DB) (loc : String) (date st et : Nat) :
    createPresence db loc date st et =
      ({ presences := db.presences ++ [⟨db.nextPresenceId, loc, date, st, et⟩]
         slots := (insertSlotRows db.slots db.nextSlotId db.nextPresenceId
           (slotInstants date st et)).1
         reservations := db.reservations
         nextPresenceId := db.nextPresenceId + 1
         nextSlotId := (insertSlotRows db.slots db.nextSlotId db.nextPresenceId
           (slotInstants date st et)).2
         nextReservationId := db.nextReservationId }, db.nextPresenceId) :=
  rfl

/-- The slots of the presence freshly created by `createPresence`, given
that no pre-existing slot row references the new serial id. -/
theorem createPresence_slotsOf (db : DB) (loc : String) (date st et : Nat)
    (hfresh : ∀ s ∈ db.slots, s.presence_id ≠ db.nextPresenceId) :
    slotsOf (createPresence db loc date st et).1.slots
        (createPresence db loc date st et).2 =
      slotRowsFrom db.nextSlotId db.nextPresenceId (slotInstants date st et) := by
  rw [createPresence_eq]
  rw [insertSlotRows_eq db.slots db.nextSlotId db.nextPresenceId _
    (fun s hs hp => absurd hp (hfresh s hs)) (slotInstants_nodup date st et)]
  rw [slotsOf_append, slotsOf_eq_nil db.slots _ hfresh, slotsOf_slotRowsFrom,
    List.nil_append]

theorem updatePresenceWithRegeneration_eq (db : DB) (pid : Nat)
    (loc : String) (date st et : Nat) :
    updatePresenceWithRegeneration db pid loc date st et =
      { presences := db.presences.map (fun p =>
          if p.id == pid then ⟨p.id, loc, date, st, et⟩ else p)
        slots := (insertSlotRows
          (db.slots.filter (fun s => !(s.presence_id == pid)))
          db.nextSlotId pid (slotInstants date st et)).1
        reservations := db.reservations.filter (fun r =>
          !(db.slots.any (fun s => s.presence_id == pid && s.id == r.slot_id)))
        nextPresenceId := db.nextPresenceId
        nextSlotId := (insertSlotRows
          (db.slots.filter (fun s => !(s.presence_id == pid)))
          db.nextSlotId pid (slotInstants date st et)).2
        nextReservationId := db.nextReservationId } :=
  rfl

/-! ### Claim theorems -/

/-- **C1.** For every civil date and start/end time pair where `end - start`
is a positive multiple of 15 minutes, the slot set materialized by
`createPresence` for the new presence is exactly the sequence
`start, start+15min, start+30min, …` of `(end-start)/15min` instants,
strictly increasing, the first equal to `start` and the last strictly less
than `end`. -/
theorem C1_createPresence_slot_set (db : DB) (location : String)
    (date st et n : Nat) (hn : 0 < n) (het : et = st + 15 * n)
    (hfresh : ∀ s ∈ db.slots, s.presence_id ≠ db.nextPresenceId) :
    ((slotsOf (createPresence db location date st et).1.slots
        (createPresence db location date st et).2).map (fun s => s.start_at) =
      slotLadder (slotInstant date st) n) ∧
    (slotsOf (createPresence db location date st et).1.slots
        (createPresence db location date st et).2).length = n ∧
    ((slotsOf (createPresence db location date st et).1.slots
        (createPresence db location date st et).2).Pairwise
      (fun a b => a.start_at < b.start_at)) ∧
    ((slotsOf (createPresence db location date st et).1.slots
        (createPresence db location date st et).2).head?.map
      (fun s => s.start_at) = some (slotInstant date st)) ∧
    (∀ s ∈ slotsOf (createPresence db location date st et).1.slots
        (createPresence db location date st et).2,
      s.start_at < slotInstant date et) := by
  obtain ⟨m, rfl⟩ : ∃ m, n = m + 1 := ⟨n - 1, by omega⟩
  subst het
  have hmap : (slotsOf
      (createPresence db location date st (st + 15 * (m + 1))).1.slots
      (createPresence db location date st (st + 15 * (m + 1))).2).map
        (fun s => s.start_at) =
      slotLadder (slotInstant date st) (m + 1) := by
    rw [createPresence_slotsOf db location date st _ hfresh,
      slotRowsFrom_map_start_at, slotInstants_eq_ladder]
  refine ⟨hmap, ?_, ?_, ?_, ?_⟩
  · have hlen := congrArg List.length hmap
    simpa [slotLadder] using hlen
  · have hp := slotLadder_pairwise (slotInstant date st) (m + 1)
    rw [← hmap, List.pairwise_map] at hp
    exact hp
  · have hh := congrArg List.head? hmap
    rw [List.head?_map] at hh
    rw [hh, slotLadder_head?]
  · intro s hs
    have hmem : s.start_at ∈ slotLadder (slotInstant date st) (m + 1) := by
      rw [← hmap]
      exact List.mem_map_of_mem _ hs
    have hlt := slotLadder_mem_lt _ _ _ hmem
    have het2 : slotInstant date (st + 15 * (m + 1)) =
        slotInstant date st + 15 * ((m + 1 : Nat) : Int) := by
      unfold slotInstant
      push_cast
      ring
    rw [het2]
    exact hlt

/-- Witness for C1 at a concrete input: location "Gare", 09:00–10:00 on
day 0 yields the four instants 09:00, 09:15, 09:30, 09:45. -/
theorem C1_createPresence_slot_set_witness :
    (0 < 4) ∧ (600 = 540 + 15 * 4) ∧
    (∀ s ∈ dbEmpty.slots, s.presence_id ≠ dbEmpty.nextPresenceId) ∧
    ((slotsOf (createPresence dbEmpty "Gare" 0 540 600).1.slots
        (createPresence dbEmpty "Gare" 0 540 600).2).map (fun s => s.start_at) =
      slotLadder (slotInstant 0 540) 4) := by
  refine ⟨by decide, by decide, by decide, ?_⟩
  exact (C1_createPresence_slot_set dbEmpty "Gare" 0 540 600 4 (by decide)
    (by decide) (by decide)).1

/-- **C9.** For every date and start/end time pair with `end ≤ start`, the
slot generation performed by `createPresence` (and by regeneration)
produces an empty slot set: no slot rows are inserted for that presence. -/
theorem C9_empty_window_no_slots (db : DB) (location : String)
    (date st et : Nat) (h : et ≤ st)
    (hfresh : ∀ s ∈ db.slots, s.presence_id ≠ db.nextPresenceId) :
    (slotsOf (createPresence db location date st et).1.slots
      (createPresence db location date st et).2 = []) ∧
    ∀ pid, slotsOf
      (updatePresenceWithRegeneration db pid location date st et).slots pid = [] := by
  have hnil := slotInstants_eq_nil date st et h
  constructor
  · rw [createPresence_slotsOf db location date st et hfresh, hnil]
    rfl
  · intro pid
    simp only [updatePresenceWithRegeneration, hnil, insertSlotRows,
      cascadeDeleteSlots]
    apply slotsOf_eq_nil
    intro s hs
    have hm := List.mem_filter.mp hs
    simpa using hm.2

/-- Witness for C9: a 10:00–09:00 window (and a 09:00–09:00 one would be
alike) yields no slots, both at creation and at regeneration. -/
theorem C9_empty_window_no_slots_witness :
    (540 ≤ 600) ∧
    (∀ s ∈ dbEmpty.slots, s.presence_id ≠ dbEmpty.nextPresenceId) ∧
    (slotsOf (createPresence dbEmpty "Gare" 0 600 540).1.slots
      (createPresence dbEmpty "Gare" 0 600 540).2 = []) ∧
    slotsOf (updatePresenceWithRegeneration dbEmpty 1 "Gare" 0 600 540).slots
      1 = [] := by
  have h := C9_empty_window_no_slots dbEmpty "Gare" 0 600 540 (by decide)
    (by decide)
  exact ⟨by decide, by decide, h.1, h.2 1⟩

/-- **C2.** For every existing presence id and every valid new field set
(`start < end`), `updatePresenceWithRegeneration` removes all of the
presence's prior slots and all reservations attached to those slots;
afterwards `countReservationsForPresence` returns 0 and the presence's
slot set is exactly the deterministic 15-minute expansion of the new
window.  The id hypotheses state that the serial counter is ahead of every
stored slot id and of every reservation's slot reference, which
`ensureSchema`'s `SERIAL` columns guarantee. -/
theorem C2_regeneration_destroys_and_rebuilds (db : DB) (pid : Nat)
    (location : String) (date st et : Nat)
    (hp : (getPresenceById db pid).isSome = true) (hst : st < et)
    (hid : ∀ s ∈ db.slots, s.id < db.nextSlotId)
    (href : ∀ r ∈ db.reservations, r.slot_id < db.nextSlotId) :
    (∀ s ∈ db.slots, s.presence_id = pid →
      s ∉ (updatePresenceWithRegeneration db pid location date st et).slots) ∧
    (∀ r ∈ db.reservations,
      (∃ s ∈ db.slots, s.id = r.slot_id ∧ s.presence_id = pid) →
      r ∉ (updatePresenceWithRegeneration db pid location date st et).reservations) ∧
    countReservationsForPresence
      (updatePresenceWithRegeneration db pid location date st et) pid = 0 ∧
    (slotsOf (updatePresenceWithRegeneration db pid location date st et).slots
        pid).map (fun s => s.start_at) = slotInstants date st et := by
  rw [updatePresenceWithRegeneration_eq]
  have hno2 : ∀ s ∈ db.slots.filter (fun s => !(s.presence_id == pid)),
      s.presence_id = pid → s.start_at ∉ slotInstants date st et := by
    intro s hs hp'
    exact absurd hp' (by simpa using (List.mem_filter.mp hs).2)
  rw [insertSlotRows_eq _ db.nextSlotId pid _ hno2 (slotInstants_nodup date st et)]
  dsimp only
  refine ⟨?_, ?_, ?_, ?_⟩
  · intro s hs hsp hmem
    rcases List.mem_append.mp hmem with h | h
    · have := (List.mem_filter.mp h).2
      simp [hsp] at this
    · have := (slotRowsFrom_mem _ _ _ s h).2
      exact absurd (hid s hs) (by omega)
  · intro r hr hex hmem
    have hpred := (List.mem_filter.mp hmem).2
    rcases hex with ⟨s, hs, hsid, hsp⟩
    rw [Bool.not_eq_true', List.any_eq_false] at hpred
    have hcontra := hpred s hs
    simp [hsp, hsid] at hcontra
  · rw [countReservationsForPresence, List.length_eq_zero,
      List.filter_eq_nil_iff]
    intro r hr
    have hrdb : r ∈ db.reservations := List.mem_of_mem_filter hr
    rw [Bool.not_eq_true, List.any_eq_false]
    intro s hs
    rcases List.mem_append.mp hs with h | h
    · have hnp : s.presence_id ≠ pid := by
        simpa using (List.mem_filter.mp h).2
      simp [hnp]
    · have hge := (slotRowsFrom_mem _ _ _ s h).2
      have hlt := href r hrdb
      have hne : s.id ≠ r.slot_id := by omega
      simp [hne]
  · rw [slotsOf_append, slotsOf_eq_nil _ _ ?_, slotsOf_slotRowsFrom,
      List.nil_append, slotRowsFrom_map_start_at]
    intro s hs
    simpa using (List.mem_filter.mp hs).2

/-- A store with one presence ("Gare", 09:00–10:00 on day 0), its four
slots, and one reservation on the 09:00 slot. -/
def dbOneRes : DB :=
  ⟨[⟨1, "Gare", 0, 540, 600⟩],
   [⟨1, 1, 540⟩, ⟨2, 1, 555⟩, ⟨3, 1, 570⟩, ⟨4, 1, 585⟩],
   [⟨1, 1, "Ada", "Lovelace", "0470", 2, none, "tok-1", 0⟩],
   2, 5, 2⟩

/-- Witness for C2: regenerating the presence to a 10:00–11:00 window
wipes its reservation and rebuilds the slot set for the new window. -/
theorem C2_regeneration_destroys_and_rebuilds_witness :
    ((getPresenceById dbOneRes 1).isSome = true) ∧ (600 < 660) ∧
    (∀ s ∈ dbOneRes.slots, s.id < dbOneRes.nextSlotId) ∧
    (∀ r ∈ dbOneRes.reservations, r.slot_id < dbOneRes.nextSlotId) ∧
    countReservationsForPresence
      (updatePresenceWithRegeneration dbOneRes 1 "Gare" 0 600 660) 1 = 0 ∧
    (slotsOf (updatePresenceWithRegeneration dbOneRes 1 "Gare" 0 600 660).slots
      1).map (fun s => s.start_at) = slotInstants 0 600 660 := by
  have h := C2_regeneration_destroys_and_rebuilds dbOneRes 1 "Gare" 0 600 660
    (by decide) (by decide) (by decide) (by decide)
  exact ⟨by decide, by decide, by decide, by decide, h.2.2.1, h.2.2.2⟩

/-- **C10.** `updateReservation(token, fields)` modifies only the
`first_name`, `last_name`, `phone`, `quantity` and `comment` fields of the
reservation whose token matches; that reservation's `id`, `slot_id`,
`token` and `created_at`, every other reservation, every slot and every
presence are unchanged, and a call with an unknown token changes nothing. -/
theorem C10_updateReservation_frame (db : DB) (token : String) (f : ResFields) :
    (updateReservation db token f).presences = db.presences ∧
    (updateReservation db token f).slots = db.slots ∧
    (updateReservation db token f).reservations.length =
      db.reservations.length ∧
    (∀ r ∈ db.reservations, r.token ≠ token →
      r ∈ (updateReservation db token f).reservations) ∧
    (∀ r' ∈ (updateReservation db token f).reservations,
      ∃ r ∈ db.reservations,
        r'.id = r.id ∧ r'.slot_id = r.slot_id ∧ r'.token = r.token ∧
        r'.created_at = r.created_at ∧
        (r.token ≠ token → r' = r) ∧
        (r.token = token → r'.first_name = f.first_name ∧
          r'.last_name = f.last_name ∧ r'.phone = f.phone ∧
          r'.quantity = f.quantity ∧ r'.comment = f.comment)) ∧
    ((∀ r ∈ db.reservations, r.token ≠ token) →
      updateReservation db token f = db) := by
  refine ⟨rfl, rfl, by simp [updateReservation], ?_, ?_, ?_⟩
  · intro r hr hne
    refine List.mem_map.mpr ⟨r, hr, ?_⟩
    simp [beq_eq_false_iff_ne.mpr hne]
  · intro r' hr'
    rcases List.mem_map.mp hr' with ⟨r, hr, hg⟩
    by_cases htok : r.token = token
    · have hre : r' = { r with
          first_name := f.first_name
          last_name := f.last_name
          phone := f.phone
          quantity := f.quantity
          comment := f.comment } := by
        rw [← hg]
        simp [htok]
      refine ⟨r, hr, ?_⟩
      subst hre
      exact ⟨rfl, rfl, rfl, rfl, fun hc => absurd htok hc,
        fun _ => ⟨rfl, rfl, rfl, rfl, rfl⟩⟩
    · have hre : r' = r := by
        rw [← hg]
        simp [beq_eq_false_iff_ne.mpr htok]
      refine ⟨r, hr, ?_⟩
      subst hre
      exact ⟨rfl, rfl, rfl, rfl, fun _ => rfl, fun hc => absurd hc htok⟩
  · intro hall
    have hmap : db.reservations.map (fun r =>
        if r.token == token then
          { r with
              first_name := f.first_name
              last_name := f.last_name
              phone := f.phone
              quantity := f.quantity
              comment := f.comment }
        else r) = db.reservations := by
      exact (List.map_congr_left (g := id) (fun r hr => by
        simp [beq_eq_false_iff_ne.mpr (hall r hr)])).trans (List.map_id _)
    rw [updateReservation, hmap]

/-- Witness for C10: updating with a token no reservation holds leaves the
store untouched. -/
theorem C10_updateReservation_frame_witness :
    (∀ r ∈ dbOneRes.reservations, r.token ≠ "zzz") ∧
    updateReservation dbOneRes "zzz" ⟨"X", "Y", "0", 1, none⟩ = dbOneRes := by
  have h := C10_updateReservation_frame dbOneRes "zzz" ⟨"X", "Y", "0", 1, none⟩
  exact ⟨by decide, h.2.2.2.2.2 (by decide)⟩

/-- **C3.** For every reservation whose owning slot's start instant is not
in the future at the time of the request, both the edit and the cancel
operations are refused with the window-closed outcome regardless of the
payload's validity, and the store is unchanged; for every reservation
whose slot start is still in the future, a valid edit and a cancel both
succeed; an unknown token yields the distinct not-found outcome. -/
theorem C3_mutation_window (db : DB) (now : Int) (token : String)
    (b : EditBody) :
    (getReservationByToken db token = none →
      postEditReservation db now token b = (.notFound, db) ∧
      postCancelReservation db now token = (.notFound, db)) ∧
    (∀ r, getReservationByToken db token = some r → r.start_at ≤ now →
      postEditReservation db now token b = (.windowClosed, db) ∧
      postCancelReservation db now token = (.windowClosed, db)) ∧
    (∀ r, getReservationByToken db token = some r → now < r.start_at →
      postCancelReservation db now token =
        (.ok, deleteReservationByToken db token) ∧
      (∀ q, b.quantity = some q → b.first_name ≠ "" → b.last_name ≠ "" →
        b.phone ≠ "" → 1 ≤ q →
        postEditReservation db now token b =
          (.ok, updateReservation db token
            ⟨b.first_name, b.last_name, b.phone, q, b.comment⟩))) := by
  refine ⟨?_, ?_, ?_⟩
  · intro h
    constructor
    · rw [postEditReservation, h]
    · rw [postCancelReservation, h]
  · intro r hr hle
    have hcl : isBeforeSlotStart now r.start_at = false := by
      simp [isBeforeSlotStart]
      omega
    constructor
    · rw [postEditReservation, hr]
      simp [hcl]
    · rw [postCancelReservation, hr]
      simp [hcl]
  · intro r hr hlt
    have hop : isBeforeSlotStart now r.start_at = true := by
      simp [isBeforeSlotStart]
      omega
    constructor
    · rw [postCancelReservation, hr]
      simp [hop]
    · intro q hq hf hl hp hq1
      rw [postEditReservation, hr]
      simp [hop, hq, beq_eq_false_iff_ne.mpr hf, beq_eq_false_iff_ne.mpr hl,
        beq_eq_false_iff_ne.mpr hp]
      omega

/-- Witness for C3: on a store whose only reservation sits on the 09:00
slot of day 0, a request at 16:40 (instant 1000) is refused as
window-closed for both edit and cancel, an unknown token is not found,
and at 08:00 (instant 480) cancel succeeds and a valid edit succeeds. -/
theorem C3_mutation_window_witness :
    (getReservationByToken dbOneRes "zzz" = none ∧
      postEditReservation dbOneRes 1000 "zzz" ⟨"A", "B", "0", some 1, none⟩ =
        (.notFound, dbOneRes)) ∧
    (getReservationByToken dbOneRes "tok-1" =
        some ⟨1, 1, "Ada", "Lovelace", "0470", 2, none, "tok-1", 0, 540,
          "Gare", 0⟩ ∧
      postEditReservation dbOneRes 1000 "tok-1" ⟨"A", "B", "0", some 1, none⟩ =
        (.windowClosed, dbOneRes) ∧
      postCancelReservation dbOneRes 1000 "tok-1" = (.windowClosed, dbOneRes)) ∧
    (postCancelReservation dbOneRes 480 "tok-1" =
      (.ok, deleteReservationByToken dbOneRes "tok-1")) ∧
    (postEditReservation dbOneRes 480 "tok-1" ⟨"A", "B", "0", some 1, none⟩ =
      (.ok, updateReservation dbOneRes "tok-1" ⟨"A", "B", "0", 1, none⟩)) := by
  have hpast := C3_mutation_window dbOneRes 1000 "tok-1"
    ⟨"A", "B", "0", some 1, none⟩
  have hfut := C3_mutation_window dbOneRes 480 "tok-1"
    ⟨"A", "B", "0", some 1, none⟩
  have hnf := C3_mutation_window dbOneRes 1000 "zzz"
    ⟨"A", "B", "0", some 1, none⟩
  have hdet : getReservationByToken dbOneRes "tok-1" =
      some ⟨1, 1, "Ada", "Lovelace", "0470", 2, none, "tok-1", 0, 540,
        "Gare", 0⟩ := by decide
  refine ⟨⟨by decide, (hnf.1 (by decide)).1⟩, ⟨hdet, ?_, ?_⟩, ?_, ?_⟩
  · exact (hpast.2.1 _ hdet (by decide)).1
  · exact (hpast.2.1 _ hdet (by decide)).2
  · exact (hfut.2.2 _ hdet (by decide)).1
  · exact (hfut.2.2 _ hdet (by decide)).2 1 rfl (by decide) (by decide)
      (by decide) (by decide)

/-- **C4.** For every presence with `N > 0` reservations, an
otherwise-valid edit request without the impact-confirmation flag is
refused without changing any state and the response reports the true count
`N`; the identical request with the flag set (or any valid edit when
`N = 0`) performs the regenerating update. -/
theorem C4_impact_confirmation (db : DB) (pid : Nat) (b : PresenceBody)
    (hpres : (getPresenceById db pid).isSome = true)
    (hloc : b.location ≠ "") (hse : b.start_time < b.end_time) :
    (0 < countReservationsForPresence db pid →
      postAdminEditPresence db pid b false =
        (.impactConfirmationRequired (countReservationsForPresence db pid),
          db)) ∧
    (0 < countReservationsForPresence db pid →
      postAdminEditPresence db pid b true =
        (.updated, updatePresenceWithRegeneration db pid b.location b.date
          b.start_time b.end_time)) ∧
    (countReservationsForPresence db pid = 0 → ∀ c,
      postAdminEditPresence db pid b c =
        (.updated, updatePresenceWithRegeneration db pid b.location b.date
          b.start_time b.end_time)) := by
  rcases Option.isSome_iff_exists.mp hpres with ⟨p, hp⟩
  have hij : slotInstant b.date b.start_time < slotInstant b.date b.end_time := by
    unfold slotInstant
    omega
  refine ⟨?_, ?_, ?_⟩
  · intro hn
    rw [postAdminEditPresence, hp]
    simp [beq_eq_false_iff_ne.mpr hloc, hij, hn]
  · intro hn
    rw [postAdminEditPresence, hp]
    simp [beq_eq_false_iff_ne.mpr hloc, hij]
  · intro hn c
    rw [postAdminEditPresence, hp]
    simp [beq_eq_false_iff_ne.mpr hloc, hij, hn]

/-- Witness for C4: the presence with one reservation is refused without
the flag (reporting count 1) and regenerated with it. -/
theorem C4_impact_confirmation_witness :
    ((getPresenceById dbOneRes 1).isSome = true) ∧
    (0 < countReservationsForPresence dbOneRes 1) ∧
    (postAdminEditPresence dbOneRes 1 ⟨"Gare", 0, 600, 660⟩ false =
      (.impactConfirmationRequired (countReservationsForPresence dbOneRes 1),
        dbOneRes)) ∧
    (postAdminEditPresence dbOneRes 1 ⟨"Gare", 0, 600, 660⟩ true =
      (.updated, updatePresenceWithRegeneration dbOneRes 1 "Gare" 0 600 660)) := by
  have h := C4_impact_confirmation dbOneRes 1 ⟨"Gare", 0, 600, 660⟩
    (by decide) (by decide) (by decide)
  exact ⟨by decide, by decide, h.1 (by decide), h.2.1 (by decide)⟩

/-- The inputs of one `POST /reserve/:slotId` request; `token` is the
`uuidv4()` value drawn for it. -/
structure BookRequest where
  slotId : Nat
  body : ReserveBody
  token : String
  now : Int
  emailSendFails : Bool
  deriving DecidableEq, Repr

/-- The state after one booking request. -/
def applyReserve (db : DB) (q : BookRequest) : DB :=
  (postReserveSlot db q.slotId q.body q.token q.now q.emailSendFails).2.1

/-- The stored tokens, in table order. -/
def reservationTokens (db : DB) : List String :=
  db.reservations.map (fun r => r.token)

theorem createReservation_some {db : DB} {slot_id : Nat} {fn ln ph : String}
    {q : Int} {c : Option String} {token : String} {now : Int} {db2 : DB}
    {rid : Nat}
    (h : createReservation db slot_id fn ln ph q c token now = some (db2, rid)) :
    (∀ r ∈ db.reservations, r.token ≠ token) ∧
    db2.reservations = db.reservations ++
      [⟨db.nextReservationId, slot_id, fn, ln, ph, q, c, token, now⟩] := by
  unfold createReservation at h
  by_cases h1 : (db.reservations.any (fun r => r.token == token)) = true
  · rw [if_pos h1] at h
    cases h
  · rw [if_neg h1] at h
    by_cases h2 : (!(db.slots.any (fun s => s.id == slot_id))) = true
    · rw [if_pos h2] at h
      cases h
    · rw [if_neg h2] at h
      injection h with h3
      cases h3
      constructor
      · intro r hr
        have h1' : db.reservations.any (fun r => r.token == token) = false := by
          simpa using h1
        have := List.any_eq_false.mp h1' r hr
        simpa using this
      · rfl

theorem postReserveSlot_confirmed {db : DB} {slotId : Nat} {b : ReserveBody}
    {token : String} {now : Int} {ef : Bool} {tok : String} {es : Bool}
    {db2 : DB} {lg : Bool}
    (h : postReserveSlot db slotId b token now ef =
      (.confirmed tok es, db2, lg)) :
    tok = token ∧ es = (b.email != "") ∧ lg = ((b.email != "") && ef) ∧
    ∃ qty rid, b.quantity = some qty ∧
      createReservation db slotId b.first_name b.last_name b.phone qty
        b.comment token now = some (db2, rid) := by
  unfold postReserveSlot at h
  cases h1 : getSlotById db slotId with
  | none =>
    rw [h1] at h
    simp at h
  | some sd =>
    rw [h1] at h
    dsimp only at h
    cases h2 : b.quantity with
    | none =>
      rw [h2] at h
      simp at h
    | some qty =>
      rw [h2] at h
      dsimp only at h
      by_cases h3 : (b.first_name == "" || b.last_name == "" ||
          b.phone == "" || decide (qty < 1)) = true
      · rw [if_pos h3] at h
        simp at h
      · rw [if_neg h3] at h
        cases h4 : createReservation db slotId b.first_name b.last_name
            b.phone qty b.comment token now with
        | none =>
          rw [h4] at h
          simp at h
        | some pr =>
          rw [h4] at h
          obtain ⟨db3, rid⟩ := pr
          dsimp only at h
          injection h with ho hrest
          injection ho with ho1 ho2
          injection hrest with hdb hlg
          cases hdb
          exact ⟨ho1.symm, ho2.symm, hlg.symm, qty, rid, rfl, h4⟩

theorem tokens_applyReserve (db : DB) (q : BookRequest) :
    reservationTokens (applyReserve db q) = reservationTokens db ∨
    (reservationTokens (applyReserve db q) =
      reservationTokens db ++ [q.token] ∧
      ∀ r ∈ db.reservations, r.token ≠ q.token) := by
  unfold applyReserve postReserveSlot
  cases h1 : getSlotById db q.slotId with
  | none => exact Or.inl rfl
  | some sd =>
    dsimp only
    cases h2 : q.body.quantity with
    | none => exact Or.inl rfl
    | some qty =>
      dsimp only
      by_cases h3 : (q.body.first_name == "" || q.body.last_name == "" ||
          q.body.phone == "" || decide (qty < 1)) = true
      · rw [if_pos h3]
        exact Or.inl rfl
      · rw [if_neg h3]
        cases h4 : createReservation db q.slotId q.body.first_name
            q.body.last_name q.body.phone qty q.body.comment q.token q.now with
        | none => exact Or.inl rfl
        | some pr =>
          obtain ⟨db2, rid⟩ := pr
          have hc := createReservation_some h4
          refine Or.inr ⟨?_, hc.1⟩
          unfold reservationTokens
          rw [hc.2]
          simp

theorem nodup_applyReserve (db : DB) (q : BookRequest)
    (h : (reservationTokens db).Nodup) :
    (reservationTokens (applyReserve db q)).Nodup := by
  rcases tokens_applyReserve db q with he | ⟨he, hfresh⟩
  · rw [he]
    exact h
  · rw [he, List.nodup_append]
    refine ⟨h, List.nodup_singleton _, ?_⟩
    intro a ha hb
    rcases List.mem_singleton.mp hb with rfl
    rcases List.mem_map.mp ha with ⟨r, hr, hra⟩
    exact hfresh r hr hra

theorem nodup_foldl_applyReserve (reqs : List BookRequest) (db : DB)
    (h : (reservationTokens db).Nodup) :
    (reservationTokens (reqs.foldl applyReserve db)).Nodup := by
  induction reqs generalizing db with
  | nil => exact h
  | cons q rest ih => exact ih _ (nodup_applyReserve db q h)

/-- **C7.** Every successful booking mints a token that equals the token of
no previously created reservation (the value itself comes from `uuidv4()`
and is independent of the request's payload — here it is the `token`
input), and token uniqueness across all reservations holds after every
sequence of bookings. -/
theorem C7_token_uniqueness (db : DB)
    (hnd : (reservationTokens db).Nodup) :
    (∀ slotId b token now ef tok es db2 lg,
      postReserveSlot db slotId b token now ef =
        (.confirmed tok es, db2, lg) →
      (∀ r ∈ db.reservations, r.token ≠ tok) ∧
      (reservationTokens db2).Nodup) ∧
    (∀ reqs : List BookRequest,
      (reservationTokens (reqs.foldl applyReserve db)).Nodup) := by
  constructor
  · intro slotId b token now ef tok es db2 lg h
    obtain ⟨rfl, _, _, qty, rid, hq, hcr⟩ := postReserveSlot_confirmed h
    have hc := createReservation_some hcr
    refine ⟨hc.1, ?_⟩
    have he : reservationTokens db2 = reservationTokens db ++ [tok] := by
      unfold reservationTokens
      rw [hc.2]
      simp
    rw [he, List.nodup_append]
    refine ⟨hnd, List.nodup_singleton _, ?_⟩
    intro a ha hb
    rcases List.mem_singleton.mp hb with rfl
    rcases List.mem_map.mp ha with ⟨r, hr, hra⟩
    exact hc.1 r hr hra
  · intro reqs
    exact nodup_foldl_applyReserve reqs db hnd

/-- Witness for C7: booking the 09:00 slot on the one-reservation store
with a fresh token keeps the token list duplicate-free. -/
theorem C7_token_uniqueness_witness :
    (reservationTokens dbOneRes).Nodup ∧
    (reservationTokens
      ([({ slotId := 1
           body := ⟨"Grace", "Hopper", "0471", some 3, none, ""⟩
           token := "tok-2"
           now := 480
           emailSendFails := false } : BookRequest)].foldl applyReserve
        dbOneRes)).Nodup := by
  have h := C7_token_uniqueness dbOneRes (by decide)
  exact ⟨by decide, h.2 _⟩

/-- **C8.** For every booking request in which the requester supplied an
email address, a failure of the confirmation-notification send is caught
and logged and does not undo or fail the booking: the outcome and the
resulting state are the same as on a successful send, and when the booking
succeeds the reservation is present and the requester gets the
confirmation outcome. -/
theorem C8_email_failure_swallowed (db : DB) (slotId : Nat) (b : ReserveBody)
    (token : String) (now : Int) (hemail : b.email ≠ "") :
    ((postReserveSlot db slotId b token now true).1 =
      (postReserveSlot db slotId b token now false).1) ∧
    ((postReserveSlot db slotId b token now true).2.1 =
      (postReserveSlot db slotId b token now false).2.1) ∧
    (∀ tok es db2 lg,
      postReserveSlot db slotId b token now true =
        (.confirmed tok es, db2, lg) →
      lg = true ∧ es = true ∧ ∃ r ∈ db2.reservations, r.token = tok) := by
  have hne : (b.email != "") = true := bne_iff_ne.mpr hemail
  refine ⟨?_, ?_, ?_⟩
  · unfold postReserveSlot
    cases h1 : getSlotById db slotId with
    | none => rfl
    | some sd =>
      dsimp only
      cases h2 : b.quantity with
      | none => rfl
      | some qty =>
        dsimp only
        by_cases h3 : (b.first_name == "" || b.last_name == "" ||
            b.phone == "" || decide (qty < 1)) = true
        · rw [if_pos h3, if_pos h3]
        · rw [if_neg h3, if_neg h3]
          cases h4 : createReservation db slotId b.first_name b.last_name
              b.phone qty b.comment token now with
          | none => rfl
          | some pr => rfl
  · unfold postReserveSlot
    cases h1 : getSlotById db slotId with
    | none => rfl
    | some sd =>
      dsimp only
      cases h2 : b.quantity with
      | none => rfl
      | some qty =>
        dsimp only
        by_cases h3 : (b.first_name == "" || b.last_name == "" ||
            b.phone == "" || decide (qty < 1)) = true
        · rw [if_pos h3, if_pos h3]
        · rw [if_neg h3, if_neg h3]
          cases h4 : createReservation db slotId b.first_name b.last_name
              b.phone qty b.comment token now with
          | none => rfl
          | some pr => rfl
  · intro tok es db2 lg h
    obtain ⟨rfl, hes, hlg, qty, rid, hq, hcr⟩ := postReserveSlot_confirmed h
    have hc := createReservation_some hcr
    refine ⟨by rw [hlg, hne, Bool.true_and], by rw [hes, hne], ?_⟩
    refine ⟨⟨db.nextReservationId, slotId, b.first_name, b.last_name,
      b.phone, qty, b.comment, tok, now⟩, ?_, rfl⟩
    rw [hc.2]
    simp

/-- Witness for C8: a booking with an email address whose send fails still
returns the same confirmation and state as a successful send. -/
theorem C8_email_failure_swallowed_witness :
    ("ada@example.org" ≠ "") ∧
    ((postReserveSlot dbOneRes 1
        ⟨"Grace", "Hopper", "0471", some 3, none, "ada@example.org"⟩
        "tok-2" 480 true).1 =
      (postReserveSlot dbOneRes 1
        ⟨"Grace", "Hopper", "0471", some 3, none, "ada@example.org"⟩
        "tok-2" 480 false).1) := by
  have h := C8_email_failure_swallowed dbOneRes 1
    ⟨"Grace", "Hopper", "0471", some 3, none, "ada@example.org"⟩
    "tok-2" 480 (by decide)
  exact ⟨by decide, h.1⟩

theorem lex2LE_trans {α β : Type} [LinearOrder α] [LinearOrder β]
    {a b c : α × β} (h1 : lex2LE a b) (h2 : lex2LE b c) : lex2LE a c := by
  rcases h1 with h | ⟨e, h⟩
  · rcases h2 with h' | ⟨e', h'⟩
    · exact Or.inl (lt_trans h h')
    · exact Or.inl (lt_of_lt_of_le h (le_of_eq e'))
  · rcases h2 with h' | ⟨e', h'⟩
    · exact Or.inl (lt_of_le_of_lt (le_of_eq e) h')
    · exact Or.inr ⟨e.trans e', le_trans h h'⟩

theorem lex2LE_total {α β : Type} [LinearOrder α] [LinearOrder β]
    (a b : α × β) : lex2LE a b ∨ lex2LE b a := by
  rcases lt_trichotomy a.1 b.1 with h | h | h
  · exact Or.inl (Or.inl h)
  · rcases le_total a.2 b.2 with h2 | h2
    · exact Or.inl (Or.inr ⟨h, h2⟩)
    · exact Or.inr (Or.inr ⟨h.symm, h2⟩)
  · exact Or.inr (Or.inl h)

theorem lex3LE_trans {α β γ : Type} [LinearOrder α] [LinearOrder β]
    [LinearOrder γ] {a b c : α × β × γ} (h1 : lex3LE a b) (h2 : lex3LE b c) :
    lex3LE a c := by
  rcases h1 with h | ⟨e, h⟩
  · rcases h2 with h' | ⟨e', h'⟩
    · exact Or.inl (lt_trans h h')
    · exact Or.inl (lt_of_lt_of_le h (le_of_eq e'))
  · rcases h2 with h' | ⟨e', h'⟩
    · exact Or.inl (lt_of_le_of_lt (le_of_eq e) h')
    · exact Or.inr ⟨e.trans e', lex2LE_trans h h'⟩

theorem lex3LE_total {α β γ : Type} [LinearOrder α] [LinearOrder β]
    [LinearOrder γ] (a b : α × β × γ) : lex3LE a b ∨ lex3LE b a := by
  rcases lt_trichotomy a.1 b.1 with h | h | h
  · exact Or.inl (Or.inl h)
  · rcases lex2LE_total a.2 b.2 with h2 | h2
    · exact Or.inl (Or.inr ⟨h, h2⟩)
    · exact Or.inr (Or.inr ⟨h.symm, h2⟩)
  · exact Or.inr (Or.inl h)

/-- **C5.** For every store state and call time, `listUpcomingSlots`
returns no slot whose instant is strictly before "now" at call time, honors
the optional single-date and case-insensitive location-substring filters
(membership is exactly: a joined slot row at or after "now" that passes
both filters), and returns its results ordered ascending by presence date,
then location, then slot instant. -/
theorem C5_listUpcomingSlots_spec (db : DB) (now : Int) (df : Option Nat)
    (lf : String) :
    (∀ r ∈ listUpcomingSlots db now df lf, ¬(r.start_at < now)) ∧
    (∀ r, r ∈ listUpcomingSlots db now df lf ↔
      (r ∈ joinSlotRows db ∧ now ≤ r.start_at ∧
        (∀ d, df = some d → instantDate r.start_at = d) ∧
        (lf ≠ "" → ilikeContains r.location lf = true))) ∧
    List.Pairwise (fun a b => lex3LE (slotSortKey a) (slotSortKey b))
      (listUpcomingSlots db now df lf) := by
  have hiff : ∀ r, r ∈ listUpcomingSlots db now df lf ↔
      (r ∈ joinSlotRows db ∧ now ≤ r.start_at ∧
        (∀ d, df = some d → instantDate r.start_at = d) ∧
        (lf ≠ "" → ilikeContains r.location lf = true)) := by
    intro r
    unfold listUpcomingSlots
    rw [List.mem_insertionSort]
    cases df with
    | none =>
      by_cases hlf : lf = ""
      · subst hlf
        simp [List.mem_filter]
        try tauto
      · rw [if_neg hlf]
        simp [List.mem_filter, hlf]
        try tauto
    | some d =>
      by_cases hlf : lf = ""
      · subst hlf
        simp [List.mem_filter]
        try tauto
      · rw [if_neg hlf]
        simp [List.mem_filter, hlf]
        try tauto
  refine ⟨?_, hiff, ?_⟩
  · intro r hr
    have hle := ((hiff r).mp hr).2.1
    omega
  · unfold listUpcomingSlots
    letI : IsTotal SlotRow (fun a b => lex3LE (slotSortKey a) (slotSortKey b)) :=
      ⟨fun a b => lex3LE_total _ _⟩
    letI : IsTrans SlotRow (fun a b => lex3LE (slotSortKey a) (slotSortKey b)) :=
      ⟨fun a b c hab hbc => lex3LE_trans hab hbc⟩
    exact List.sorted_insertionSort _ _

/-- Two same-day presences: location "B" holds the 09:00 slot and location
"A" the 10:00 slot, each carrying one reservation. -/
def dbTwoLocations : DB :=
  ⟨[⟨1, "B", 0, 540, 600⟩, ⟨2, "A", 0, 600, 660⟩],
   [⟨1, 1, 540⟩, ⟨2, 2, 600⟩],
   [⟨1, 1, "Ada", "L", "0", 1, none, "t1", 0⟩,
    ⟨2, 2, "Grace", "H", "0", 1, none, "t2", 0⟩],
   3, 3, 3⟩

/-- Witness for C5: the 10:00 slot at location "A" is listed, and no
listed slot starts before the call time. -/
theorem C5_listUpcomingSlots_spec_witness :
    ((⟨2, 600, "A", 0⟩ : SlotRow) ∈ listUpcomingSlots dbTwoLocations 0 none "") ∧
    (∀ r ∈ listUpcomingSlots dbTwoLocations 700 none "", ¬(r.start_at < 700)) := by
  have h0 := C5_listUpcomingSlots_spec dbTwoLocations 0 none ""
  have h7 := C5_listUpcomingSlots_spec dbTwoLocations 700 none ""
  exact ⟨(h0.2.1 _).mpr ⟨by decide, by decide, by simp, by simp⟩, h7.1⟩

/-- Counterexample for C6 as stated: `listReservations` sorts by
`ORDER BY p.date ASC, s.start_at ASC` — the location is not part of the
sort key — so with locations "B" (09:00 slot) and "A" (10:00 slot) on the
same date the output is not ordered by (date, location, instant). -/
theorem C6_not_ordered_by_location :
    ¬ List.Pairwise (fun a b : ResRow =>
        lex3LE (a.date, a.location, a.start_at) (b.date, b.location, b.start_at))
      (listReservations dbTwoLocations none "") := by
  intro h
  have hl : listReservations dbTwoLocations none "" =
      [⟨1, "Ada", "L", "0", 1, none, 0, 540, "B", 0, "t1"⟩,
       ⟨2, "Grace", "H", "0", 1, none, 0, 600, "A", 0, "t2"⟩] := rfl
  rw [hl] at h
  rcases List.pairwise_cons.mp h with ⟨hhead, -⟩
  have hrel := hhead _ (List.mem_singleton_self _)
  rcases hrel with hd | ⟨-, hrel2⟩
  · exact lt_irrefl _ hd
  · rcases hrel2 with hloc | ⟨hloc, -⟩
    · rw [String.lt_iff_toList_lt] at hloc
      exact absurd hloc (by decide)
    · exact absurd hloc (by decide)

/-- **C6 (amended).** `listReservations` applies the same filter
conventions as `listUpcomingSlots` — an optional single-date equality (on
the presence's date) and a case-insensitive location substring — orders
its results ascending by presence date then slot instant (location is not
an ordering key), and caps the returned rows at 100. -/
theorem C6_listReservations_order_and_cap (db : DB) (df : Option Nat)
    (lf : String) :
    (∀ d, df = some d → ∀ r ∈ listReservations db df lf, r.date = d) ∧
    (lf ≠ "" → ∀ r ∈ listReservations db df lf,
      ilikeContains r.location lf = true) ∧
    List.Pairwise (fun a b => lex2LE (resSortKey a) (resSortKey b))
      (listReservations db df lf) ∧
    (listReservations db df lf).length ≤ 100 := by
  refine ⟨?_, ?_, ?_, ?_⟩
  · rintro d rfl r hr
    unfold listReservations at hr
    dsimp only at hr
    have hr2 := List.mem_of_mem_take hr
    rw [List.mem_insertionSort] at hr2
    by_cases hlf : lf = ""
    · rw [if_pos hlf] at hr2
      simpa using (List.mem_filter.mp hr2).2
    · rw [if_neg hlf] at hr2
      have hr3 := (List.mem_filter.mp hr2).1
      simpa using (List.mem_filter.mp hr3).2
  · intro hlf r hr
    unfold listReservations at hr
    have hr2 := List.mem_of_mem_take hr
    rw [List.mem_insertionSort, if_neg hlf] at hr2
    exact (List.mem_filter.mp hr2).2
  · unfold listReservations
    refine List.Pairwise.sublist (List.take_sublist _ _) ?_
    letI : IsTotal ResRow (fun a b => lex2LE (resSortKey a) (resSortKey b)) :=
      ⟨fun a b => lex2LE_total _ _⟩
    letI : IsTrans ResRow (fun a b => lex2LE (resSortKey a) (resSortKey b)) :=
      ⟨fun a b c hab hbc => lex2LE_trans hab hbc⟩
    exact List.sorted_insertionSort _ _
  · unfold listReservations
    exact List.length_take_le _ _

/-- Witness for C6 (amended): the date filter is honored on the
two-location store and the cap holds. -/
theorem C6_listReservations_order_and_cap_witness :
    (∀ r ∈ listReservations dbTwoLocations (some 0) "", r.date = 0) ∧
    (listReservations dbTwoLocations none "").length ≤ 100 := by
  have hs := C6_listReservations_order_and_cap dbTwoLocations (some 0) ""
  have hn := C6_listReservations_order_and_cap dbTwoLocations none ""
  exact ⟨hs.1 0 rfl, hn.2.2.2⟩

end JusDePomme
